import Mathlib

/-!
Verification of the month-attribution, aggregation and budget-derivation
engine of the income_spending_app repository (file: the SQLite database
layer, src/unnamed/part_002).

The database rows are modelled as Lean structures, SQL statements as pure
list transformations, and the JavaScript loops as folds.  Dates are stored
in the database as ISO strings (YYYY-MM-DD) and compared with SQL string
comparison; since that string order coincides with lexicographic order on
the (year, month, day) triple, a date is modelled as that triple.
Amounts are INTEGER minor-currency units (agorot), modelled as Int.
-/

namespace IncomeApp

/-- A calendar date (year, month, day).  The stored TEXT date column holds
ISO strings; SQL string comparison on them equals lexicographic comparison
of these components. -/
structure Date where
  year : Nat
  month : Nat
  day : Nat
deriving DecidableEq, Repr

/-- SQL string comparison of ISO dates: lexicographic on (year, month, day). -/
def Date.le (a b : Date) : Bool :=
  decide (a.year < b.year ∨ (a.year = b.year ∧
    (a.month < b.month ∨ (a.month = b.month ∧ a.day ≤ b.day))))

/-- A row of the transactions table (schema plus the ALTER TABLE columns
category_id, is_transfer, is_investment, user_comment,
is_occasional_income).  The scraped_at timestamp carries no logic and is
omitted. -/
structure Txn where
  id : String
  date : Date
  amount : Int
  description : String
  memo : String
  account : String
  type : String
  category_id : Option String
  is_transfer : Bool
  is_investment : Bool
  is_occasional_income : Bool
  user_comment : Option String
deriving DecidableEq, Repr

/-- JS String.prototype.includes: substring containment. -/
def containsSub (s pat : String) : Bool :=
  (List.range (s.data.length + 1)).any (fun i => pat.data.isPrefixOf (s.data.drop i))

/-- TRANSFER_PATTERNS: automatic exclusion from balance. -/
def TRANSFER_PATTERNS : List String :=
  ["כרטיסי אשראי ל"]

/-- isTransfer(description): substring match against the transfer patterns
(also tried lowercased, as in the source). -/
def isTransfer (description : String) : Bool :=
  if description = "" then false
  else TRANSFER_PATTERNS.any (fun p =>
    containsSub description p || containsSub description.toLower p.toLower)

/-- SALARY_PATTERNS: income that should shift to the previous month. -/
def SALARY_PATTERNS : List String :=
  ["משכורת", "שכר", "זיכוי מלאומי", "העברת משכורת"]

/-- CREDIT_CARD_PATTERNS: card settlements that shift to the previous month. -/
def CREDIT_CARD_PATTERNS : List String :=
  ["מסטרקרד", "ויזה", "כרטיסי אשראי", "ישראכרט", "אמריקן אקספרס", "דיינרס", "לאומי קארד"]

/-- isSalaryTransaction(description, amount). -/
def isSalaryTransaction (description : String) (amount : Int) : Bool :=
  if amount ≤ 0 then false
  else if description = "" then false
  else SALARY_PATTERNS.any (fun p => containsSub description p)

/-- isCreditCardTransaction(description). -/
def isCreditCardTransaction (description : String) : Bool :=
  if description = "" then false
  else CREDIT_CARD_PATTERNS.any (fun p => containsSub description p)

/-- BILL_CUTOFF_DAY: salary / credit-card bills land on the 1st-3rd. -/
def BILL_CUTOFF_DAY : Nat := 3

/-- The SQL window of getTransactionsByIsraeliMonth:
date >= year-month-01 AND date <= nextYear-nextMonth-10. -/
def israeliWindow (year month : Nat) (txn : Txn) : Bool :=
  let nextMonth := if 12 < month + 1 then 1 else month + 1
  let nextYear := if 12 < month + 1 then year + 1 else year
  Date.le ⟨year, month, 1⟩ txn.date && Date.le txn.date ⟨nextYear, nextMonth, 10⟩

/-- The JavaScript filter callback of getTransactionsByIsraeliMonth. -/
def inIsraeliMonth (year month : Nat) (txn : Txn) : Bool :=
  let nextMonth := if 12 < month + 1 then 1 else month + 1
  let nextYear := if 12 < month + 1 then year + 1 else year
  let txnMonth := txn.date.month
  let txnDay := txn.date.day
  let txnYear := txn.date.year
  if txnYear = year ∧ txnMonth = month then
    if txnDay ≤ BILL_CUTOFF_DAY then
      !(isSalaryTransaction txn.description txn.amount) &&
        !(isCreditCardTransaction txn.description)
    else
      true
  else if (txnYear = nextYear ∧ txnMonth = nextMonth ∧ txnDay ≤ BILL_CUTOFF_DAY) ∨
          (nextMonth = 1 ∧ txnYear = nextYear ∧ txnMonth = 1 ∧ txnDay ≤ BILL_CUTOFF_DAY) then
    isSalaryTransaction txn.description txn.amount || isCreditCardTransaction txn.description
  else
    false

/-- getTransactionsByIsraeliMonth(year, month): SQL range fetch followed by
the Israeli-logic filter.  The ORDER BY date DESC of the fetch only
reorders rows; the claims verified here concern membership and sums, so
store order is kept. -/
def getTransactionsByIsraeliMonth (store : List Txn) (year month : Nat) : List Txn :=
  let allTransactions := store.filter (israeliWindow year month)
  allTransactions.filter (inIsraeliMonth year month)

/-- A per-category bucket of getMonthlySummary's byCategory object. -/
structure CatBucket where
  income : Int
  expenses : Int
  transactions : List Txn
deriving DecidableEq, Repr

/-- JS key of a transaction in byCategory: txn.category_id || 'uncategorized'
(null and the empty string are both falsy). -/
def catKey (txn : Txn) : String :=
  match txn.category_id with
  | none => "uncategorized"
  | some s => if s = "" then "uncategorized" else s

/-- One accumulation step into a category bucket: income += amount when
amount > 0, else expenses += Math.abs(amount); the transaction is pushed. -/
def bucketAdd (b : CatBucket) (txn : Txn) : CatBucket :=
  { income := if 0 < txn.amount then b.income + txn.amount else b.income
    expenses := if 0 < txn.amount then b.expenses else b.expenses + |txn.amount|
    transactions := b.transactions ++ [txn] }

/-- Lookup in a JS object modelled as an association list (string keys are
unique by construction, insertion order preserved). -/
def lookupBucket : List (String × CatBucket) → String → Option CatBucket
  | [], _ => none
  | p :: rest, k => if p.1 = k then some p.2 else lookupBucket rest k

/-- byCategory[catId] initialisation-and-accumulate step of the grouping
loop in getMonthlySummary. -/
def addToBucket (m : List (String × CatBucket)) (txn : Txn) : List (String × CatBucket) :=
  let k := catKey txn
  match lookupBucket m k with
  | some _ => m.map (fun p => if p.1 = k then (p.1, bucketAdd p.2 txn) else p)
  | none => m ++ [(k, bucketAdd ⟨0, 0, []⟩ txn)]

/-- Accumulator of the main partition loop of getMonthlySummary. -/
structure SummaryAcc where
  income : Int := 0
  expenses : Int := 0
  transfersIn : Int := 0
  transfersOut : Int := 0
  investmentTotal : Int := 0
  transactions : List Txn := []
  transfers : List Txn := []
  investments : List Txn := []
deriving Repr

/-- One iteration of the partition loop: transfers first, then investments,
else a counted transaction. -/
def summaryStep (acc : SummaryAcc) (txn : Txn) : SummaryAcc :=
  if txn.is_transfer then
    { acc with
      transfers := acc.transfers ++ [txn]
      transfersIn := if 0 < txn.amount then acc.transfersIn + txn.amount else acc.transfersIn
      transfersOut := if 0 < txn.amount then acc.transfersOut else acc.transfersOut + |txn.amount| }
  else if txn.is_investment then
    { acc with
      investments := acc.investments ++ [txn]
      investmentTotal := acc.investmentTotal + |txn.amount| }
  else
    { acc with
      transactions := acc.transactions ++ [txn]
      income := if 0 < txn.amount then acc.income + txn.amount else acc.income
      expenses := if 0 < txn.amount then acc.expenses else acc.expenses + |txn.amount| }

/-- The record returned by getMonthlySummary. -/
structure MonthlySummary where
  year : Nat
  month : Nat
  income : Int
  expenses : Int
  balance : Int
  transfersIn : Int
  transfersOut : Int
  transfersNet : Int
  investmentTotal : Int
  transactionCount : Nat
  transactions : List Txn
  transfers : List Txn
  investments : List Txn
  byCategory : List (String × CatBucket)
deriving Repr

/-- getMonthlySummary(year, month). -/
def getMonthlySummary (store : List Txn) (year month : Nat) : MonthlySummary :=
  let allTransactions := getTransactionsByIsraeliMonth store year month
  let acc := allTransactions.foldl summaryStep {}
  let byCategory := acc.transactions.foldl addToBucket []
  { year := year
    month := month
    income := acc.income
    expenses := acc.expenses
    balance := acc.income - acc.expenses
    transfersIn := acc.transfersIn
    transfersOut := acc.transfersOut
    transfersNet := acc.transfersIn - acc.transfersOut
    investmentTotal := acc.investmentTotal
    transactionCount := acc.transactions.length
    transactions := acc.transactions
    transfers := acc.transfers
    investments := acc.investments
    byCategory := byCategory }

/-- One backwards step of the month-walking loops (month--; wrap to
December of the previous year below January). -/
def prevYM (year month : Nat) : Nat × Nat :=
  if month - 1 < 1 then (year - 1, 12) else (year, month - 1)

/-- The list of the n calendar months strictly before (year, month), most
recent first, exactly as walked by the for-loops of getCategoryAverage and
getAverageRegularIncome. -/
def monthsBack (year month : Nat) : Nat → List (Nat × Nat)
  | 0 => []
  | n + 1 =>
    let p := prevYM year month
    p :: monthsBack p.1 p.2 n

/-- The category's expense total read from one month's summary inside
getCategoryAverage (0 when the category has no bucket that month). -/
def categoryTotalFor (store : List Txn) (categoryId : String) (year month : Nat) : Int :=
  match lookupBucket (getMonthlySummary store year month).byCategory categoryId with
  | some catData => catData.expenses
  | none => 0

/-- Math.round(sum / n) for an integer sum and positive integer count n:
floor(sum / n + 1 / 2) = floor((2 * sum + n) / (2 * n)). -/
def jsRound (sum : Int) (n : Nat) : Int :=
  Int.fdiv (2 * sum + n) (2 * n)

/-- getCategoryAverage(categoryId, currentYear, currentMonth, numMonths):
collect the expense totals of the numMonths preceding months, keep the
nonzero ones, return their rounded mean (0 when none). -/
def getCategoryAverage (store : List Txn) (categoryId : String)
    (currentYear currentMonth : Nat) (numMonths : Nat) : Int :=
  let totals := (monthsBack currentYear currentMonth numMonths).map
    (fun p => categoryTotalFor store categoryId p.1 p.2)
  let nonZeroTotals := totals.filter (fun t => decide (0 < t))
  if nonZeroTotals.length = 0 then 0
  else jsRound nonZeroTotals.sum nonZeroTotals.length

/-- A row of the categories table. -/
structure Category where
  id : String
  name : String
  color : String
deriving DecidableEq, Repr

/-- The database state consumed by the budget derivation: the transactions
table, the categories table, and the settings table.  Settings are stored
as strings and read back through parseInt(...) || 0; they are modelled
here as the parsed integers (expected_income, savings_goal, and the
per-month savings_goal_Y_M keys). -/
structure Store where
  transactions : List Txn
  categories : List Category
  expectedIncomeSetting : Int
  savingsGoalDefault : Int
  savingsGoalMonthly : Nat → Nat → Option Int

/-- getCategories(): the categories table.  The source orders rows by name;
every consumer looks entries up by key or maps over all of them, so the
ordering is not modelled. -/
def getCategories (s : Store) : List Category := s.categories

/-- getExpectedIncome(): the parsed expected_income setting. -/
def getExpectedIncome (s : Store) : Int := s.expectedIncomeSetting

/-- getSavingsGoal(year, month): the per-month savings_goal_Y_M setting
when present, else the global savings_goal default. -/
def getSavingsGoal (s : Store) (year month : Nat) : Int :=
  match s.savingsGoalMonthly year month with
  | some v => v
  | none => s.savingsGoalDefault

/-- getAllCategoryAverages(currentYear, currentMonth): the averages object,
keyed by category id plus the 'uncategorized' key. -/
def getAllCategoryAverages (s : Store) (currentYear currentMonth : Nat) :
    List (String × Int) :=
  (s.categories.map (fun cat =>
    (cat.id, getCategoryAverage s.transactions cat.id currentYear currentMonth 3)))
  ++ [("uncategorized", getCategoryAverage s.transactions "uncategorized" currentYear currentMonth 3)]

/-- JS averages[catId] || 0: association lookup defaulting to 0 (a stored 0
is falsy and also yields 0). -/
def avgLookup (averages : List (String × Int)) (k : String) : Int :=
  match averages.find? (fun p => p.1 = k) with
  | some p => p.2
  | none => 0

/-- getRegularIncomeForMonth(year, month): positive-amount counted
transactions not flagged occasional. -/
def getRegularIncomeForMonth (store : List Txn) (year month : Nat) : Int :=
  (getMonthlySummary store year month).transactions.foldl
    (fun acc txn =>
      if 0 < txn.amount ∧ txn.is_occasional_income = false then acc + txn.amount else acc) 0

/-- getOccasionalIncomeForMonth(year, month): positive-amount counted
transactions flagged occasional. -/
def getOccasionalIncomeForMonth (store : List Txn) (year month : Nat) : Int :=
  (getMonthlySummary store year month).transactions.foldl
    (fun acc txn =>
      if 0 < txn.amount ∧ txn.is_occasional_income = true then acc + txn.amount else acc) 0

/-- getAverageRegularIncome(currentYear, currentMonth, numMonths): walk the
preceding months, compute each month's regular income (the loop body is
the same sum as getRegularIncomeForMonth), keep the positive ones, return
their rounded mean (0 when none). -/
def getAverageRegularIncome (store : List Txn) (currentYear currentMonth : Nat)
    (numMonths : Nat) : Int :=
  let incomes := ((monthsBack currentYear currentMonth numMonths).map
    (fun p => getRegularIncomeForMonth store p.1 p.2)).filter (fun x => decide (0 < x))
  if incomes.length = 0 then 0
  else jsRound incomes.sum incomes.length

/-- The expected-income formula of calculateAvailableBudget:
MAX(actual regular, user override, average regular) + actual occasional. -/
def expectedIncomeFormula (actualRegular userExpected averageRegular actualOccasional : Int) : Int :=
  max (max actualRegular userExpected) averageRegular + actualOccasional

/-- Name of the designated variable-expenses category. -/
def VARIABLE_EXPENSES_NAME : String := "הוצאות משתנות"

/-- The breakdown sub-object of calculateAvailableBudget's result. -/
structure BudgetBreakdown where
  totalBudget : Int
  minusSavings : Int
  minusFixed : Int
  equalsVariable : Int
  alreadySpent : Int
  stillAvailable : Int
deriving DecidableEq, Repr

/-- The record returned by calculateAvailableBudget. -/
structure BudgetResult where
  income : Int
  actualIncome : Int
  expectedIncome : Int
  expectedRegularIncome : Int
  actualRegularIncome : Int
  actualOccasionalIncome : Int
  userExpectedIncome : Int
  averageIncome : Int
  savingsGoal : Int
  fixedExpenses : Int
  availableForVariable : Int
  variableActual : Int
  remainingForVariable : Int
  breakdown : BudgetBreakdown
deriving DecidableEq, Repr

/-- One iteration of the fixed-expenses loop over Object.entries(byCategory):
the variable-expenses entry sets variableActual, every other entry adds
Math.max(actual, average) to fixedExpenses. -/
def fixedStep (variableCategoryId : Option String) (averages : List (String × Int))
    (acc : Int × Int) (p : String × CatBucket) : Int × Int :=
  if some p.1 = variableCategoryId then (acc.1, p.2.expenses)
  else (acc.1 + max p.2.expenses (avgLookup averages p.1), acc.2)

/-- calculateAvailableBudget(year, month). -/
def calculateAvailableBudget (s : Store) (year month : Nat) : BudgetResult :=
  let summary := getMonthlySummary s.transactions year month
  let averages := getAllCategoryAverages s year month
  let savingsGoal := getSavingsGoal s year month
  let actualRegularIncome := getRegularIncomeForMonth s.transactions year month
  let userExpectedIncome := getExpectedIncome s
  let averageRegularIncome := getAverageRegularIncome s.transactions year month 3
  let actualOccasionalIncome := getOccasionalIncomeForMonth s.transactions year month
  let expectedRegularIncome := max (max actualRegularIncome userExpectedIncome) averageRegularIncome
  let expectedIncome := expectedRegularIncome + actualOccasionalIncome
  let income := expectedIncome
  let actualIncome := summary.income
  let variableCategory := (getCategories s).find? (fun c => c.name = VARIABLE_EXPENSES_NAME)
  let variableCategoryId := variableCategory.map (fun c => c.id)
  let fv := summary.byCategory.foldl (fixedStep variableCategoryId averages) (0, 0)
  let fixedExpenses := fv.1
  let variableActual := fv.2
  let availableForVariable := income - savingsGoal - fixedExpenses
  let remainingForVariable := availableForVariable - variableActual
  { income := income
    actualIncome := actualIncome
    expectedIncome := expectedIncome
    expectedRegularIncome := expectedRegularIncome
    actualRegularIncome := actualRegularIncome
    actualOccasionalIncome := actualOccasionalIncome
    userExpectedIncome := userExpectedIncome
    averageIncome := averageRegularIncome
    savingsGoal := savingsGoal
    fixedExpenses := fixedExpenses
    availableForVariable := availableForVariable
    variableActual := variableActual
    remainingForVariable := remainingForVariable
    breakdown :=
      { totalBudget := income
        minusSavings := savingsGoal
        minusFixed := fixedExpenses
        equalsVariable := availableForVariable
        alreadySpent := variableActual
        stillAvailable := remainingForVariable } }

/-- A raw scraped record handed to upsertTransactions (description and memo
may be null, defaulted to the empty string on write). -/
structure RawTxn where
  id : String
  date : Date
  amount : Int
  description : Option String
  memo : Option String
deriving DecidableEq, Repr

/-- The row written by the INSERT branch of upsertTransactions: columns not
named in the INSERT keep their schema defaults (category_id NULL,
is_investment 0, is_occasional_income 0, user_comment NULL); is_transfer
is auto-detected from the description. -/
def insertRow (txn : RawTxn) (account : String) : Txn :=
  { id := txn.id
    date := txn.date
    amount := txn.amount
    description := txn.description.getD ""
    memo := txn.memo.getD ""
    account := account
    type := if 0 < txn.amount then "income" else "expense"
    category_id := none
    is_transfer := isTransfer (txn.description.getD "")
    is_investment := false
    is_occasional_income := false
    user_comment := none }

/-- The UPDATE branch of upsertTransactions: overwrite date, amount,
description, memo, account and type; every other column is untouched. -/
def updateRow (w : Txn) (txn : RawTxn) (account : String) : Txn :=
  { w with
    date := txn.date
    amount := txn.amount
    description := txn.description.getD ""
    memo := txn.memo.getD ""
    account := account
    type := if 0 < txn.amount then "income" else "expense" }

/-- One iteration of the upsert loop: UPDATE when a row with the id exists,
otherwise INSERT (with transfer auto-detection). -/
def upsertOne (rows : List Txn) (account : String) (txn : RawTxn) : List Txn :=
  if rows.any (fun w => w.id = txn.id) then
    rows.map (fun w => if w.id = txn.id then updateRow w txn account else w)
  else
    rows ++ [insertRow txn account]

/-- upsertTransactions(transactions, account): the atomic batch loop.  The
source returns transactions.length; the modelled effect is the new table
contents. -/
def upsertTransactions (rows : List Txn) (txns : List RawTxn) (account : String) : List Txn :=
  txns.foldl (fun rs txn => upsertOne rs account txn) rows

/-- The transactions table together with the category_rules table
(description_pattern is UNIQUE, so the rules are an association list from
pattern to category id). -/
structure DBState where
  transactions : List Txn
  rules : List (String × String)
deriving Repr

/-- INSERT INTO category_rules ... ON CONFLICT(description_pattern) DO
UPDATE SET category_id: last write wins on an existing pattern. -/
def upsertRule (rules : List (String × String)) (pat cat : String) : List (String × String) :=
  if rules.any (fun p => p.1 = pat) then
    rules.map (fun p => if p.1 = pat then (p.1, cat) else p)
  else
    rules ++ [(pat, cat)]

/-- DELETE FROM category_rules WHERE description_pattern = pat. -/
def deleteRule (rules : List (String × String)) (pat : String) : List (String × String) :=
  rules.filter (fun p => !(p.1 = pat : Bool))

/-- JS truthiness of the nullable categoryId argument (null and the empty
string are falsy). -/
def optTruthy : Option String → Bool
  | none => false
  | some s => !(s = "" : Bool)

/-- Step 1 of setTransactionCategory: UPDATE transactions SET category_id =
? WHERE id = ?. -/
def applyCategoryUpdate (rows : List Txn) (transactionId : String)
    (categoryId : Option String) : List Txn :=
  rows.map (fun w =>
    if w.id = transactionId then { w with category_id := categoryId } else w)

/-- Step 2 of setTransactionCategory: when the row exists, its description
is truthy and categoryId is truthy, upsert the rule for that exact
description and cascade the category to every row with the same
description whose category is NULL or empty. -/
def cascadeRule (st : DBState) (rows1 : List Txn) (transactionId : String)
    (categoryId : Option String) : DBState :=
  match rows1.find? (fun w => w.id = transactionId), categoryId with
  | some t, some cid =>
    if t.description ≠ "" ∧ cid ≠ "" then
      { transactions := rows1.map (fun w =>
          if w.description = t.description ∧
              (w.category_id = none ∨ w.category_id = some "") then
            { w with category_id := some cid }
          else w)
        rules := upsertRule st.rules t.description cid }
    else { transactions := rows1, rules := st.rules }
  | _, _ => { transactions := rows1, rules := st.rules }

/-- Step 3 of setTransactionCategory: when categoryId is falsy, delete the
rule keyed by the row's description. -/
def clearRuleStep (st2 : DBState) (transactionId : String)
    (categoryId : Option String) : DBState :=
  if optTruthy categoryId then st2
  else
    match st2.transactions.find? (fun w => w.id = transactionId) with
    | some t2 =>
      if t2.description ≠ "" then
        { st2 with rules := deleteRule st2.rules t2.description }
      else st2
    | none => st2

/-- setTransactionCategory(transactionId, categoryId): the three sequential
SQL statements of the source, composed in order. -/
def setTransactionCategory (st : DBState) (transactionId : String)
    (categoryId : Option String) : DBState :=
  clearRuleStep
    (cascadeRule st (applyCategoryUpdate st.transactions transactionId categoryId)
      transactionId categoryId)
    transactionId categoryId

/-- The record returned by getYearToDateSummary. -/
structure YtdSummary where
  year : Nat
  income : Int
  expenses : Int
  balance : Int
  investmentTotal : Int
  transactionCount : Nat
deriving DecidableEq, Repr

/-- Accumulator of the year-to-date loop. -/
structure YtdAcc where
  income : Int := 0
  expenses : Int := 0
  investmentTotal : Int := 0
  count : Nat := 0
deriving DecidableEq, Repr

/-- The Israeli year a transaction belongs to: a Jan 1-3 salary or
credit-card transaction belongs to the previous calendar year, everything
else to its calendar year. -/
def belongsToYear (txn : Txn) : Nat :=
  if txn.date.month = 1 ∧ txn.date.day ≤ 3 then
    if isSalaryTransaction txn.description txn.amount ∨ isCreditCardTransaction txn.description then
      txn.date.year - 1
    else txn.date.year
  else txn.date.year

/-- One iteration of the year-to-date loop over the fetched rows. -/
def ytdStep (year : Nat) (acc : YtdAcc) (txn : Txn) : YtdAcc :=
  if belongsToYear txn = year then
    if txn.is_investment then
      { acc with investmentTotal := acc.investmentTotal + |txn.amount|, count := acc.count + 1 }
    else if 0 < txn.amount then
      { acc with income := acc.income + txn.amount, count := acc.count + 1 }
    else
      { acc with expenses := acc.expenses + |txn.amount|, count := acc.count + 1 }
  else acc

/-- getYearToDateSummary(year): fetch the non-transfer rows dated in
[year-01-01, (year+1)-01-03], resolve each row's Israeli year, and total
the rows resolving to the requested year. -/
def getYearToDateSummary (store : List Txn) (year : Nat) : YtdSummary :=
  let allTxns := store.filter (fun t =>
    Date.le ⟨year, 1, 1⟩ t.date && Date.le t.date ⟨year + 1, 1, 3⟩ && !t.is_transfer)
  let acc := allTxns.foldl (ytdStep year) {}
  { year := year
    income := acc.income
    expenses := acc.expenses
    balance := acc.income - acc.expenses
    investmentTotal := acc.investmentTotal
    transactionCount := acc.count }

/-- setTransactionInvestment(transactionId, isInvestment):
UPDATE transactions SET is_investment = ?, is_transfer = 0 WHERE id = ?. -/
def setTransactionInvestment (rows : List Txn) (transactionId : String)
    (isInvestment : Bool) : List Txn :=
  rows.map (fun w =>
    if w.id = transactionId then { w with is_investment := isInvestment, is_transfer := false }
    else w)

/-!  Lemmas. -/

/-- The combined SQL-window plus filter test of getTransactionsByIsraeliMonth,
restated as the three-way attribution condition. -/
lemma window_pred_iff (year month : Nat) (t : Txn)
    (hm1 : 1 ≤ month) (hm2 : month ≤ 12) (hd : 1 ≤ t.date.day) :
    (israeliWindow year month t = true ∧ inIsraeliMonth year month t = true) ↔
      ((t.date.year = year ∧ t.date.month = month ∧ BILL_CUTOFF_DAY < t.date.day) ∨
       (t.date.year = year ∧ t.date.month = month ∧ t.date.day ≤ BILL_CUTOFF_DAY ∧
         isSalaryTransaction t.description t.amount = false ∧
         isCreditCardTransaction t.description = false) ∨
       (t.date.year = (if month = 12 then year + 1 else year) ∧
        t.date.month = (if month = 12 then 1 else month + 1) ∧
        t.date.day ≤ BILL_CUTOFF_DAY ∧
        (isSalaryTransaction t.description t.amount = true ∨
          isCreditCardTransaction t.description = true))) := by
  cases hS : isSalaryTransaction t.description t.amount <;>
    cases hC : isCreditCardTransaction t.description <;>
      simp only [israeliWindow, inIsraeliMonth, Date.le, BILL_CUTOFF_DAY, hS, hC,
        Bool.and_eq_true, decide_eq_true_eq, Bool.not_true, Bool.not_false,
        Bool.and_self, Bool.false_and, Bool.and_false, Bool.true_and, Bool.and_true,
        Bool.or_true, Bool.true_or, Bool.or_false, Bool.false_or] <;>
      split_ifs <;> simp_all <;> omega

/-- Membership in getTransactionsByIsraeliMonth is membership in the store
under the combined window-and-filter test. -/
lemma israeliMonth_mem (store : List Txn) (year month : Nat) (t : Txn) :
    t ∈ getTransactionsByIsraeliMonth store year month ↔
      t ∈ store ∧ (israeliWindow year month t = true ∧ inIsraeliMonth year month t = true) := by
  simp only [getTransactionsByIsraeliMonth, List.mem_filter, and_assoc]

/-- Full membership characterization combining the previous two lemmas. -/
lemma israeliMonth_mem_iff (store : List Txn) (year month : Nat) (t : Txn)
    (hm1 : 1 ≤ month) (hm2 : month ≤ 12) (hd : 1 ≤ t.date.day) :
    t ∈ getTransactionsByIsraeliMonth store year month ↔
      t ∈ store ∧
      ((t.date.year = year ∧ t.date.month = month ∧ BILL_CUTOFF_DAY < t.date.day) ∨
       (t.date.year = year ∧ t.date.month = month ∧ t.date.day ≤ BILL_CUTOFF_DAY ∧
         isSalaryTransaction t.description t.amount = false ∧
         isCreditCardTransaction t.description = false) ∨
       (t.date.year = (if month = 12 then year + 1 else year) ∧
        t.date.month = (if month = 12 then 1 else month + 1) ∧
        t.date.day ≤ BILL_CUTOFF_DAY ∧
        (isSalaryTransaction t.description t.amount = true ∨
          isCreditCardTransaction t.description = true))) := by
  rw [israeliMonth_mem]
  exact and_congr_right (fun _ => window_pred_iff year month t hm1 hm2 hd)

/-- C1: a stored transaction appears in getTransactionsByIsraeliMonth(year,
month) iff (a) it is dated in the target month with day > BILL_CUTOFF_DAY,
or (b) dated in the target month with day <= BILL_CUTOFF_DAY and matching
neither the salary patterns (which require positive amount) nor the
credit-card patterns, or (c) dated in the following calendar month (with
December wrapping to January of the next year) with day <= BILL_CUTOFF_DAY
and matching a salary or credit-card pattern.  In particular a
salary-pattern transaction dated on day 2 of month M is attributed to
month M-1 and not to M, while a non-salary non-card transaction dated on
day 2 of month M is attributed to M. -/
theorem C1_month_attribution (store : List Txn) (year month : Nat) (t : Txn)
    (hm1 : 1 ≤ month) (hm2 : month ≤ 12) (hd : 1 ≤ t.date.day) :
    (t ∈ getTransactionsByIsraeliMonth store year month ↔
      t ∈ store ∧
      ((t.date.year = year ∧ t.date.month = month ∧ BILL_CUTOFF_DAY < t.date.day) ∨
       (t.date.year = year ∧ t.date.month = month ∧ t.date.day ≤ BILL_CUTOFF_DAY ∧
         isSalaryTransaction t.description t.amount = false ∧
         isCreditCardTransaction t.description = false) ∨
       (t.date.year = (if month = 12 then year + 1 else year) ∧
        t.date.month = (if month = 12 then 1 else month + 1) ∧
        t.date.day ≤ BILL_CUTOFF_DAY ∧
        (isSalaryTransaction t.description t.amount = true ∨
          isCreditCardTransaction t.description = true)))) ∧
    (2 ≤ month → t ∈ store → t.date.year = year → t.date.month = month → t.date.day = 2 →
      isSalaryTransaction t.description t.amount = true →
      t ∈ getTransactionsByIsraeliMonth store year (month - 1) ∧
        t ∉ getTransactionsByIsraeliMonth store year month) ∧
    (t ∈ store → t.date.year = year → t.date.month = month → t.date.day = 2 →
      isSalaryTransaction t.description t.amount = false →
      isCreditCardTransaction t.description = false →
      t ∈ getTransactionsByIsraeliMonth store year month) := by
  have hB : BILL_CUTOFF_DAY = 3 := rfl
  refine ⟨israeliMonth_mem_iff store year month t hm1 hm2 hd, ?_, ?_⟩
  · intro h2 hmem hy hm hday hsal
    constructor
    · rw [israeliMonth_mem_iff store year (month - 1) t (by omega) (by omega) hd]
      refine ⟨hmem, Or.inr (Or.inr ?_)⟩
      have hne : ¬(month - 1 = 12) := by omega
      simp only [hne, if_false]
      refine ⟨hy, by omega, by omega, Or.inl hsal⟩
    · rw [israeliMonth_mem_iff store year month t hm1 hm2 hd]
      rintro ⟨-, (⟨-, -, hgt⟩ | ⟨-, -, -, hs, -⟩ | ⟨hy', hm', -, -⟩)⟩
      · omega
      · rw [hsal] at hs; exact Bool.true_eq_false.mp hs
      · split_ifs at hy' hm' <;> omega
  · intro hmem hy hm hday hs hc
    rw [israeliMonth_mem_iff store year month t hm1 hm2 hd]
    exact ⟨hmem, Or.inr (Or.inl ⟨hy, hm, by omega, hs, hc⟩)⟩

/-- A concrete non-salary, non-card transaction dated on day 2, used to
instantiate hypothesis-bearing theorems. -/
def txC1 : Txn :=
  { id := "t1", date := ⟨2024, 6, 2⟩, amount := -5000, description := "rent",
    memo := "", account := "hapoalim", type := "expense", category_id := none,
    is_transfer := false, is_investment := false, is_occasional_income := false,
    user_comment := none }

/-- Witness for C1: the concrete day-2 non-salary transaction is attributed
to its own calendar month. -/
theorem C1_month_attribution_witness :
    txC1 ∈ getTransactionsByIsraeliMonth [txC1] 2024 6 :=
  (C1_month_attribution [txC1] 2024 6 txC1 (by decide) (by decide) (by decide)).2.2
    (List.mem_singleton.mpr rfl) rfl rfl rfl (by decide) (by decide)

/-- Closed form of the partition loop of getMonthlySummary. -/
lemma foldl_summaryStep (L : List Txn) (acc : SummaryAcc) :
    L.foldl summaryStep acc =
      { income := acc.income +
          ((L.filter (fun t => (!t.is_transfer && !t.is_investment) && decide (0 < t.amount))).map Txn.amount).sum
        expenses := acc.expenses +
          ((L.filter (fun t => (!t.is_transfer && !t.is_investment) && decide (t.amount ≤ 0))).map (fun t => |t.amount|)).sum
        transfersIn := acc.transfersIn +
          ((L.filter (fun t => t.is_transfer && decide (0 < t.amount))).map Txn.amount).sum
        transfersOut := acc.transfersOut +
          ((L.filter (fun t => t.is_transfer && decide (t.amount ≤ 0))).map (fun t => |t.amount|)).sum
        investmentTotal := acc.investmentTotal +
          ((L.filter (fun t => !t.is_transfer && t.is_investment)).map (fun t => |t.amount|)).sum
        transactions := acc.transactions ++ L.filter (fun t => !t.is_transfer && !t.is_investment)
        transfers := acc.transfers ++ L.filter (fun t => t.is_transfer)
        investments := acc.investments ++ L.filter (fun t => !t.is_transfer && t.is_investment) } := by
  induction L generalizing acc with
  | nil => simp
  | cons t L ih =>
    simp only [List.foldl_cons, List.filter_cons]
    rw [ih]
    rcases ht : t.is_transfer <;> rcases hi : t.is_investment <;>
      rcases le_or_lt t.amount 0 with hp | hp <;>
        first
          | (simp [summaryStep, ht, hi, hp, not_lt.mpr hp, SummaryAcc.mk.injEq,
              List.append_assoc, add_assoc]; done)
          | (simp [summaryStep, ht, hi, hp, not_le.mpr hp, SummaryAcc.mk.injEq,
              List.append_assoc, add_assoc]; done)

/-- Appending a fresh key at the end of the object is seen by a lookup of
that key only when it was absent. -/
lemma lookupBucket_append (m : List (String × CatBucket)) (k k' : String) (b : CatBucket) :
    lookupBucket (m ++ [(k, b)]) k' =
      match lookupBucket m k' with
      | some c => some c
      | none => if k = k' then some b else none := by
  induction m with
  | nil => simp [lookupBucket]
  | cons p rest ih =>
    by_cases hp : p.1 = k'
    · simp [lookupBucket, hp]
    · simp only [List.cons_append, lookupBucket, hp, if_false]
      exact ih

/-- Updating every entry with key k in place changes exactly the lookup of k. -/
lemma lookupBucket_map_update (m : List (String × CatBucket)) (t : Txn) (k k' : String) :
    lookupBucket (m.map (fun p => if p.1 = k then (p.1, bucketAdd p.2 t) else p)) k' =
      if k' = k then (lookupBucket m k).map (fun b => bucketAdd b t)
      else lookupBucket m k' := by
  induction m with
  | nil => simp [lookupBucket]
  | cons p rest ih =>
    simp only [List.map_cons]
    by_cases hk : p.1 = k <;> by_cases hk' : p.1 = k'
    · have hkk : k' = k := hk'.symm.trans hk
      simp [lookupBucket, hk, hk', hkk]
    · have hkk : ¬ k' = k := fun h => hk' (hk.trans h.symm)
      have hkk' : ¬ k = k' := fun h => hkk h.symm
      simp [lookupBucket, hk, hk', hkk, hkk', ih]
    · have hkk : ¬ k' = k := fun h => hk (hk'.trans h)
      simp [lookupBucket, hk, hk', hkk]
    · simp [lookupBucket, hk, hk', ih]

/-- Effect of one addToBucket step on a lookup. -/
lemma lookup_addToBucket (m : List (String × CatBucket)) (t : Txn) (k : String) :
    lookupBucket (addToBucket m t) k =
      if k = catKey t then
        some (bucketAdd ((lookupBucket m k).getD ⟨0, 0, []⟩) t)
      else lookupBucket m k := by
  unfold addToBucket
  cases hm : lookupBucket m (catKey t) with
  | some b =>
    simp only [hm]
    rw [lookupBucket_map_update m t (catKey t) k]
    by_cases hk : k = catKey t
    · subst hk; simp [hm]
    · simp [hk]
  | none =>
    simp only [hm]
    rw [lookupBucket_append]
    by_cases hk : k = catKey t
    · subst hk; simp [hm]
    · have hk2 : ¬ catKey t = k := fun h => hk h.symm
      cases hmk : lookupBucket m k <;> simp [hmk, hk, hk2]

/-- Accumulation of a whole group of transactions into one bucket. -/
def groupAcc (b : CatBucket) (G : List Txn) : CatBucket := G.foldl bucketAdd b

/-- Closed form of the grouping loop of getMonthlySummary: looking a key up
in the built byCategory object yields the bucket accumulated over exactly
the transactions whose key it is, and nothing when there are none. -/
lemma byCategory_lookup (L : List Txn) (m : List (String × CatBucket)) (k : String) :
    lookupBucket (L.foldl addToBucket m) k =
      match lookupBucket m k with
      | some b => some (groupAcc b (L.filter (fun x => decide (catKey x = k))))
      | none =>
        if L.filter (fun x => decide (catKey x = k)) = [] then none
        else some (groupAcc ⟨0, 0, []⟩ (L.filter (fun x => decide (catKey x = k)))) := by
  induction L generalizing m with
  | nil => cases hm : lookupBucket m k <;> simp [hm, groupAcc]
  | cons t L ih =>
    simp only [List.foldl_cons, List.filter_cons]
    rw [ih (addToBucket m t), lookup_addToBucket]
    by_cases hk : k = catKey t
    · rw [if_pos hk]
      have hk' : catKey t = k := hk.symm
      simp only [hk', decide_True, if_pos rfl, decide_eq_true_eq]
      cases hm : lookupBucket m k with
      | some b => simp [groupAcc]
      | none => simp [groupAcc]
    · have hk' : ¬ (catKey t = k) := fun h => hk h.symm
      rw [if_neg hk]
      simp only [hk', decide_False, if_neg]
      cases hm : lookupBucket m k <;> simp [hm, hk']

/-- Closed form of a bucket accumulated over a group: the positive amounts
sum into income, the nonpositive ones into expenses by absolute value, and
the group itself is the bucket's transaction list. -/
lemma groupAcc_spec (G : List Txn) (b : CatBucket) :
    groupAcc b G =
      { income := b.income + ((G.filter (fun t => decide (0 < t.amount))).map Txn.amount).sum
        expenses := b.expenses + ((G.filter (fun t => decide (t.amount ≤ 0))).map (fun t => |t.amount|)).sum
        transactions := b.transactions ++ G } := by
  induction G generalizing b with
  | nil => simp [groupAcc]
  | cons t G ih =>
    unfold groupAcc at ih ⊢
    simp only [List.foldl_cons, List.filter_cons]
    rw [ih]
    rcases le_or_lt t.amount 0 with hp | hp <;>
      first
        | (simp [bucketAdd, hp, not_lt.mpr hp, CatBucket.mk.injEq, List.append_assoc, add_assoc]
           done)
        | (simp [bucketAdd, hp, not_le.mpr hp, CatBucket.mk.injEq, List.append_assoc, add_assoc]
           done)

/-- Filtering by a conjunction is successive filtering. -/
lemma filter_and (L : List Txn) (p q : Txn → Bool) :
    L.filter (fun t => p t && q t) = (L.filter p).filter q := by
  induction L with
  | nil => rfl
  | cons t l ih => cases hp : p t <;> cases hq : q t <;> simp [hp, hq, ih]

/-- Zero amounts contribute nothing to an absolute-value sum, so summing
over nonpositive amounts equals summing over negative amounts. -/
lemma sum_abs_nonpos_filter (G : List Txn) :
    ((G.filter (fun t => decide (t.amount ≤ 0))).map (fun t => |t.amount|)).sum =
      ((G.filter (fun t => decide (t.amount < 0))).map (fun t => |t.amount|)).sum := by
  induction G with
  | nil => rfl
  | cons t G ih =>
    simp only [List.filter_cons]
    rcases lt_trichotomy t.amount 0 with h | h | h
    · simp [le_of_lt h, h, ih]
    · simp [h, ih]
    · simp [not_le.mpr h, not_lt.mpr (le_of_lt h), ih]

/-- Variant of the previous lemma under an extra conjoined predicate. -/
lemma sum_abs_nonpos_filter2 (G : List Txn) (p : Txn → Bool) :
    ((G.filter (fun t => decide (t.amount ≤ 0) && p t)).map (fun t => |t.amount|)).sum =
      ((G.filter (fun t => decide (t.amount < 0) && p t)).map (fun t => |t.amount|)).sum := by
  induction G with
  | nil => rfl
  | cons t G ih =>
    simp only [List.filter_cons]
    rcases lt_trichotomy t.amount 0 with h | h | h
    · cases hp : p t <;> simp [le_of_lt h, h, hp, ih]
    · cases hp : p t <;> simp [h, hp, ih]
    · cases hp : p t <;> simp [not_le.mpr h, not_lt.mpr (le_of_lt h), hp, ih]

/-- C2: getMonthlySummary partitions the attributed transactions into the
three disjoint buckets in priority order (transfer, then investment, then
counted); income is the sum of positive counted amounts, expenses the sum
of absolute values of negative counted amounts, balance their difference;
investmentTotal is the sum of absolute values over the investment bucket;
transfersNet is transfersIn minus transfersOut; and each counted
transaction is grouped under its categoryId (or 'uncategorized'), the
per-bucket income/expenses accumulated the same way. -/
theorem C2_monthly_summary (store : List Txn) (year month : Nat) :
    let L := getTransactionsByIsraeliMonth store year month
    let S := getMonthlySummary store year month
    S.transactions = L.filter (fun t => !t.is_transfer && !t.is_investment) ∧
    S.transfers = L.filter (fun t => t.is_transfer) ∧
    S.investments = L.filter (fun t => !t.is_transfer && t.is_investment) ∧
    (∀ t ∈ L,
      (t ∈ S.transfers ↔ t.is_transfer = true) ∧
      (t ∈ S.investments ↔ t.is_transfer = false ∧ t.is_investment = true) ∧
      (t ∈ S.transactions ↔ t.is_transfer = false ∧ t.is_investment = false)) ∧
    S.income = ((S.transactions.filter (fun t => decide (0 < t.amount))).map Txn.amount).sum ∧
    S.expenses = ((S.transactions.filter (fun t => decide (t.amount < 0))).map (fun t => |t.amount|)).sum ∧
    S.balance = S.income - S.expenses ∧
    S.investmentTotal = (S.investments.map (fun t => |t.amount|)).sum ∧
    S.transfersNet = S.transfersIn - S.transfersOut ∧
    S.transactionCount = S.transactions.length ∧
    (∀ k : String,
      (S.transactions.filter (fun t => decide (catKey t = k)) = [] →
        lookupBucket S.byCategory k = none) ∧
      (S.transactions.filter (fun t => decide (catKey t = k)) ≠ [] →
        lookupBucket S.byCategory k = some
          { income := (((S.transactions.filter (fun t => decide (catKey t = k))).filter
                (fun t => decide (0 < t.amount))).map Txn.amount).sum
            expenses := (((S.transactions.filter (fun t => decide (catKey t = k))).filter
                (fun t => decide (t.amount < 0))).map (fun t => |t.amount|)).sum
            transactions := S.transactions.filter (fun t => decide (catKey t = k)) })) ∧
    (∀ t ∈ S.transactions, ∃ b,
      lookupBucket S.byCategory (catKey t) = some b ∧ t ∈ b.transactions) := by
  intro L S
  have hacc := foldl_summaryStep L {}
  have htx : S.transactions = L.filter (fun t => !t.is_transfer && !t.is_investment) := by
    show (L.foldl summaryStep {}).transactions = _
    rw [hacc]
    rfl
  have htr : S.transfers = L.filter (fun t => t.is_transfer) := by
    show (L.foldl summaryStep {}).transfers = _
    rw [hacc]
    rfl
  have hinv : S.investments = L.filter (fun t => !t.is_transfer && t.is_investment) := by
    show (L.foldl summaryStep {}).investments = _
    rw [hacc]
    rfl
  have hincome : S.income =
      ((S.transactions.filter (fun t => decide (0 < t.amount))).map Txn.amount).sum := by
    show (L.foldl summaryStep {}).income = _
    rw [hacc, htx]
    show (0 : Int) + _ = _
    rw [zero_add, filter_and]
  have hexp : S.expenses =
      ((S.transactions.filter (fun t => decide (t.amount < 0))).map (fun t => |t.amount|)).sum := by
    show (L.foldl summaryStep {}).expenses = _
    rw [hacc, htx]
    show (0 : Int) + _ = _
    rw [zero_add, filter_and, sum_abs_nonpos_filter]
  have hinvTot : S.investmentTotal = (S.investments.map (fun t => |t.amount|)).sum := by
    show (L.foldl summaryStep {}).investmentTotal = _
    rw [hacc, hinv]
    show (0 : Int) + _ = _
    rw [zero_add]
  have hbyCat : S.byCategory = S.transactions.foldl addToBucket [] := rfl
  refine ⟨htx, htr, hinv, ?_, hincome, hexp, rfl, hinvTot, rfl, rfl, ?_, ?_⟩
  · intro t ht
    refine ⟨?_, ?_, ?_⟩ <;>
      first
        | (rw [htr]; simp [List.mem_filter, ht])
        | (rw [hinv]; simp [List.mem_filter, ht])
        | (rw [htx]; simp [List.mem_filter, ht])
  · intro k
    have h := byCategory_lookup S.transactions [] k
    simp only [lookupBucket] at h
    rw [hbyCat]
    constructor
    · intro hnil
      rw [h, if_pos hnil]
    · intro hne
      rw [h, if_neg hne, groupAcc_spec]
      simp [sum_abs_nonpos_filter, sum_abs_nonpos_filter2]
  · intro t ht
    have h := byCategory_lookup S.transactions [] (catKey t)
    simp only [lookupBucket] at h
    have hmem : t ∈ S.transactions.filter (fun x => decide (catKey x = catKey t)) := by
      simp [List.mem_filter, ht]
    have hne : S.transactions.filter (fun x => decide (catKey x = catKey t)) ≠ [] :=
      List.ne_nil_of_mem hmem
    rw [hbyCat, h, if_neg hne]
    refine ⟨_, rfl, ?_⟩
    rw [groupAcc_spec]
    simpa using hmem

/-- Witness for C2: in a one-transaction store the uncategorized bucket
holds exactly the counted transaction with its sums. -/
theorem C2_monthly_summary_witness :
    lookupBucket (getMonthlySummary [txC1] 2024 6).byCategory "uncategorized" = some
      { income := ((((getMonthlySummary [txC1] 2024 6).transactions.filter
            (fun t => decide (catKey t = "uncategorized"))).filter
          (fun t => decide (0 < t.amount))).map Txn.amount).sum
        expenses := ((((getMonthlySummary [txC1] 2024 6).transactions.filter
            (fun t => decide (catKey t = "uncategorized"))).filter
          (fun t => decide (t.amount < 0))).map (fun t => |t.amount|)).sum
        transactions := (getMonthlySummary [txC1] 2024 6).transactions.filter
          (fun t => decide (catKey t = "uncategorized")) } :=
  ((C2_monthly_summary [txC1] 2024 6).2.2.2.2.2.2.2.2.2.2.1 "uncategorized").2 (by decide)

/-- Closed form of the regular-income loop. -/
lemma foldl_regular (L : List Txn) (acc : Int) :
    L.foldl (fun acc txn =>
        if 0 < txn.amount ∧ txn.is_occasional_income = false then acc + txn.amount else acc) acc =
      acc + ((L.filter (fun t => decide (0 < t.amount) && !t.is_occasional_income)).map Txn.amount).sum := by
  induction L generalizing acc with
  | nil => simp
  | cons t L ih =>
    simp only [List.foldl_cons, List.filter_cons]
    by_cases hq : 0 < t.amount ∧ t.is_occasional_income = false
    · simp [hq, hq.1, hq.2, ih, add_assoc]
    · rcases not_and_or.mp hq with h | h
      · cases ho : t.is_occasional_income <;> simp [hq, h, ho, ih]
      · have ho : t.is_occasional_income = true := by
          cases hov : t.is_occasional_income
          · exact absurd hov h
          · rfl
        simp [hq, ho, ih]

/-- Closed form of the occasional-income loop. -/
lemma foldl_occasional (L : List Txn) (acc : Int) :
    L.foldl (fun acc txn =>
        if 0 < txn.amount ∧ txn.is_occasional_income = true then acc + txn.amount else acc) acc =
      acc + ((L.filter (fun t => decide (0 < t.amount) && t.is_occasional_income)).map Txn.amount).sum := by
  induction L generalizing acc with
  | nil => simp
  | cons t L ih =>
    simp only [List.foldl_cons, List.filter_cons]
    by_cases hq : 0 < t.amount ∧ t.is_occasional_income = true
    · simp [hq, hq.1, hq.2, ih, add_assoc]
    · rcases not_and_or.mp hq with h | h
      · cases ho : t.is_occasional_income <;> simp [hq, h, ho, ih]
      · have ho : t.is_occasional_income = false := by
          cases hov : t.is_occasional_income
          · rfl
          · exact absurd hov h
        simp [hq, ho, ih]

/-- C3: calculateAvailableBudget's expectedIncome equals
MAX(actual regular income, expected-income override, 3-month average
regular income) plus the month's actual occasional income, where the
actual regular income is the sum of positive-amount counted transactions
not flagged occasional and the actual occasional income is the sum of
positive-amount counted transactions flagged occasional. -/
theorem C3_expected_income (s : Store) (year month : Nat) :
    (calculateAvailableBudget s year month).expectedIncome =
      max (max (getRegularIncomeForMonth s.transactions year month) (getExpectedIncome s))
          (getAverageRegularIncome s.transactions year month 3) +
        getOccasionalIncomeForMonth s.transactions year month ∧
    getRegularIncomeForMonth s.transactions year month =
      (((getMonthlySummary s.transactions year month).transactions.filter
          (fun t => decide (0 < t.amount) && !t.is_occasional_income)).map Txn.amount).sum ∧
    getOccasionalIncomeForMonth s.transactions year month =
      (((getMonthlySummary s.transactions year month).transactions.filter
          (fun t => decide (0 < t.amount) && t.is_occasional_income)).map Txn.amount).sum := by
  refine ⟨rfl, ?_, ?_⟩
  · have h := foldl_regular (getMonthlySummary s.transactions year month).transactions 0
    rw [zero_add] at h
    exact h
  · have h := foldl_occasional (getMonthlySummary s.transactions year month).transactions 0
    rw [zero_add] at h
    exact h

/-- C9: the expected-income formula used by calculateAvailableBudget is
monotone non-decreasing in the actual regular income, the override and the
average regular income separately, and increasing the actual occasional
income by d (expected regular income held fixed) increases the result by
exactly d. -/
theorem C9_expected_income_monotone (s : Store) (year month : Nat)
    (a a2 u u2 v v2 occ d : Int) (ha : a ≤ a2) (hu : u ≤ u2) (hv : v ≤ v2) :
    (calculateAvailableBudget s year month).expectedIncome =
      expectedIncomeFormula (getRegularIncomeForMonth s.transactions year month)
        (getExpectedIncome s) (getAverageRegularIncome s.transactions year month 3)
        (getOccasionalIncomeForMonth s.transactions year month) ∧
    expectedIncomeFormula a u v occ ≤ expectedIncomeFormula a2 u v occ ∧
    expectedIncomeFormula a u v occ ≤ expectedIncomeFormula a u2 v occ ∧
    expectedIncomeFormula a u v occ ≤ expectedIncomeFormula a u v2 occ ∧
    expectedIncomeFormula a u v (occ + d) = expectedIncomeFormula a u v occ + d := by
  refine ⟨rfl, ?_, ?_, ?_, ?_⟩
  · exact add_le_add_right (max_le_max (max_le_max ha le_rfl) le_rfl) _
  · exact add_le_add_right (max_le_max (max_le_max le_rfl hu) le_rfl) _
  · exact add_le_add_right (max_le_max le_rfl hv) _
  · unfold expectedIncomeFormula
    ring

/-- An empty store used to instantiate hypothesis-bearing theorems. -/
def storeEmpty : Store :=
  { transactions := [], categories := [], expectedIncomeSetting := 0,
    savingsGoalDefault := 0, savingsGoalMonthly := fun _ _ => none }

/-- Witness for C9 at concrete incomes. -/
theorem C9_expected_income_monotone_witness :
    expectedIncomeFormula 1000000 1350000 1200000 40000 ≤
      expectedIncomeFormula 1500000 1350000 1200000 40000 :=
  (C9_expected_income_monotone storeEmpty 2024 6 1000000 1500000 1350000 1350000
    1200000 1200000 40000 0 (by decide) (by decide) (by decide)).2.1

/-- The stored per-month category expense total is the sum of absolute
values of the negative amounts of that month's counted transactions keyed
to the category. -/
lemma categoryTotal_spec (store : List Txn) (c : String) (y m : Nat) :
    categoryTotalFor store c y m =
      ((((getMonthlySummary store y m).transactions.filter
          (fun t => decide (catKey t = c))).filter
        (fun t => decide (t.amount < 0))).map (fun t => |t.amount|)).sum := by
  unfold categoryTotalFor
  have h := byCategory_lookup (getMonthlySummary store y m).transactions [] c
  simp only [lookupBucket] at h
  have hby : (getMonthlySummary store y m).byCategory =
      (getMonthlySummary store y m).transactions.foldl addToBucket [] := rfl
  rw [hby, h]
  by_cases hnil :
      (getMonthlySummary store y m).transactions.filter (fun x => decide (catKey x = c)) = []
  · rw [if_pos hnil, hnil]
    simp
  · rw [if_neg hnil, groupAcc_spec]
    simp [sum_abs_nonpos_filter, sum_abs_nonpos_filter2]

/-- C5: getCategoryAverage over a 3-month window walks the three calendar
months strictly before (year, month), collects the category's expense
total of each, drops the zero totals and averages only the nonzero ones
(0 when none remain); in particular expense totals of 0, 120 and 0 over
the window average to 120, not 40. -/
theorem C5_category_average (store : List Txn) (categoryId : String) (year month : Nat) :
    (getCategoryAverage store categoryId year month 3 =
      (let p1 := prevYM year month
       let p2 := prevYM p1.1 p1.2
       let p3 := prevYM p2.1 p2.2
       let totals := [categoryTotalFor store categoryId p1.1 p1.2,
                      categoryTotalFor store categoryId p2.1 p2.2,
                      categoryTotalFor store categoryId p3.1 p3.2]
       let nonZeroTotals := totals.filter (fun t => decide (0 < t))
       if nonZeroTotals.length = 0 then 0
       else jsRound nonZeroTotals.sum nonZeroTotals.length)) ∧
    (∀ y m : Nat, categoryTotalFor store categoryId y m =
      ((((getMonthlySummary store y m).transactions.filter
          (fun t => decide (catKey t = categoryId))).filter
        (fun t => decide (t.amount < 0))).map (fun t => |t.amount|)).sum) ∧
    (categoryTotalFor store categoryId (prevYM year month).1 (prevYM year month).2 = 0 →
     categoryTotalFor store categoryId
        (prevYM (prevYM year month).1 (prevYM year month).2).1
        (prevYM (prevYM year month).1 (prevYM year month).2).2 = 120 →
     categoryTotalFor store categoryId
        (prevYM (prevYM (prevYM year month).1 (prevYM year month).2).1
          (prevYM (prevYM year month).1 (prevYM year month).2).2).1
        (prevYM (prevYM (prevYM year month).1 (prevYM year month).2).1
          (prevYM (prevYM year month).1 (prevYM year month).2).2).2 = 0 →
     getCategoryAverage store categoryId year month 3 = 120) := by
  have key : getCategoryAverage store categoryId year month 3 =
      (let p1 := prevYM year month
       let p2 := prevYM p1.1 p1.2
       let p3 := prevYM p2.1 p2.2
       let totals := [categoryTotalFor store categoryId p1.1 p1.2,
                      categoryTotalFor store categoryId p2.1 p2.2,
                      categoryTotalFor store categoryId p3.1 p3.2]
       let nonZeroTotals := totals.filter (fun t => decide (0 < t))
       if nonZeroTotals.length = 0 then 0
       else jsRound nonZeroTotals.sum nonZeroTotals.length) := rfl
  refine ⟨key, fun y m => categoryTotal_spec store categoryId y m, ?_⟩
  intro h1 h2 h3
  rw [key]
  show (let totals := [categoryTotalFor store categoryId (prevYM year month).1
          (prevYM year month).2, _, _]
        let nonZeroTotals := totals.filter (fun t => decide (0 < t))
        if nonZeroTotals.length = 0 then 0
        else jsRound nonZeroTotals.sum nonZeroTotals.length) = 120
  rw [h1, h2, h3]
  decide

/-- A concrete April expense of 120 agorot in category c1. -/
def txC5 : Txn :=
  { id := "t5", date := ⟨2024, 4, 15⟩, amount := -120, description := "food",
    memo := "", account := "cal", type := "expense", category_id := some "c1",
    is_transfer := false, is_investment := false, is_occasional_income := false,
    user_comment := none }

/-- Witness for C5: with expense totals 0, 120, 0 over the window the
average is 120. -/
theorem C5_category_average_witness :
    getCategoryAverage [txC5] "c1" 2024 6 3 = 120 :=
  (C5_category_average [txC5] "c1" 2024 6).2.2 (by decide) (by decide) (by decide)

/-- A lookup misses exactly when no entry carries the key. -/
lemma lookupBucket_eq_none (m : List (String × CatBucket)) (k : String) :
    lookupBucket m k = none ↔ ∀ p ∈ m, p.1 ≠ k := by
  induction m with
  | nil => simp [lookupBucket]
  | cons p rest ih =>
    by_cases hp : p.1 = k <;> simp [lookupBucket, hp, ih]

/-- addToBucket keeps the byCategory keys pairwise distinct. -/
lemma addToBucket_keysDistinct (m : List (String × CatBucket)) (t : Txn)
    (h : m.Pairwise (fun p q => p.1 ≠ q.1)) :
    (addToBucket m t).Pairwise (fun p q => p.1 ≠ q.1) := by
  unfold addToBucket
  cases hm : lookupBucket m (catKey t) with
  | some b =>
    simp only [hm]
    rw [List.pairwise_map]
    refine h.imp_of_mem ?_
    intro p q _ _ hpq
    by_cases hp : p.1 = catKey t <;> by_cases hq : q.1 = catKey t
    · exact absurd (hp.trans hq.symm) hpq
    · simp only [hp, if_pos rfl, hq, if_neg hq]
      exact fun hk => hpq (hp.trans hk)
    · simp only [hp, if_neg hp, hq, if_pos rfl]
      exact fun hk => hpq (hk.trans hq.symm)
    · simp only [if_neg hp, if_neg hq]
      exact hpq
  | none =>
    simp only [hm]
    rw [List.pairwise_append]
    refine ⟨h, List.pairwise_singleton _ _, ?_⟩
    intro p hp q hq
    rw [List.mem_singleton] at hq
    subst hq
    exact (lookupBucket_eq_none m (catKey t)).mp hm p hp

/-- The byCategory object built by getMonthlySummary has pairwise distinct
keys. -/
lemma byCategory_keysDistinct (L : List Txn) (m : List (String × CatBucket))
    (h : m.Pairwise (fun p q => p.1 ≠ q.1)) :
    (L.foldl addToBucket m).Pairwise (fun p q => p.1 ≠ q.1) := by
  induction L generalizing m with
  | nil => exact h
  | cons t L ih => exact ih _ (addToBucket_keysDistinct m t h)

/-- First component of the fixed-expenses fold: the sum of
MAX(actual, average) over every non-variable entry. -/
lemma fixedStep_fst (m : List (String × CatBucket)) (vid : Option String)
    (avgs : List (String × Int)) (a b : Int) :
    (m.foldl (fixedStep vid avgs) (a, b)).1 =
      a + ((m.filter (fun p => !(some p.1 = vid : Bool))).map
        (fun p => max p.2.expenses (avgLookup avgs p.1))).sum := by
  induction m generalizing a b with
  | nil => simp
  | cons p m ih =>
    simp only [List.foldl_cons, List.filter_cons]
    by_cases hp : some p.1 = vid
    · simp [fixedStep, hp, ih]
    · simp [fixedStep, hp, ih, add_assoc]

/-- If no entry matches the variable category the second component is left
unchanged. -/
lemma fixedStep_snd_nomatch (m : List (String × CatBucket)) (vid : Option String)
    (avgs : List (String × Int)) (a b : Int) (h : ∀ p ∈ m, ¬ some p.1 = vid) :
    (m.foldl (fixedStep vid avgs) (a, b)).2 = b := by
  induction m generalizing a b with
  | nil => rfl
  | cons p m ih =>
    simp only [List.foldl_cons]
    rw [show fixedStep vid avgs (a, b) p =
        (a + max p.2.expenses (avgLookup avgs p.1), b) from by
      simp [fixedStep, h p (List.mem_cons_self p m)]]
    exact ih _ _ (fun q hq => h q (List.mem_cons_of_mem p hq))

/-- Second component of the fixed-expenses fold: the variable category's
actual expense total, or the initial value when it has no bucket. -/
lemma fixedStep_snd (m : List (String × CatBucket)) (vid : Option String)
    (avgs : List (String × Int)) (a b : Int)
    (h : m.Pairwise (fun p q => p.1 ≠ q.1)) :
    (m.foldl (fixedStep vid avgs) (a, b)).2 =
      match vid with
      | none => b
      | some v =>
        match lookupBucket m v with
        | some bkt => bkt.expenses
        | none => b := by
  induction m generalizing a b with
  | nil => cases vid <;> rfl
  | cons p m ih =>
    have htail : m.Pairwise (fun p q => p.1 ≠ q.1) := h.of_cons
    have hhead : ∀ q ∈ m, p.1 ≠ q.1 := fun q hq => List.rel_of_pairwise_cons h hq
    simp only [List.foldl_cons]
    cases vid with
    | none =>
      rw [show fixedStep none avgs (a, b) p =
          (a + max p.2.expenses (avgLookup avgs p.1), b) from by simp [fixedStep]]
      exact ih _ _ htail
    | some v =>
      by_cases hp : p.1 = v
      · rw [show fixedStep (some v) avgs (a, b) p = (a, p.2.expenses) from by
          simp [fixedStep, hp]]
        rw [fixedStep_snd_nomatch m (some v) avgs _ _ (fun q hq => by
          simp only [Option.some.injEq]
          exact fun hqv => (hhead q hq) (hp.trans hqv.symm))]
        simp [lookupBucket, hp]
      · rw [show fixedStep (some v) avgs (a, b) p =
            (a + max p.2.expenses (avgLookup avgs p.1), b) from by
          simp [fixedStep, hp]]
        rw [ih _ _ htail]
        simp [lookupBucket, hp]

/-- C4: calculateAvailableBudget sums, over every category bucket of the
month except the one whose exact name is the variable-expenses name,
MAX(actual expense, 3-month average); when no such category exists the sum
runs over all buckets; the variable category's actual expense is kept
separate, availableForVariable = expectedIncome - savingsGoal -
fixedExpenses and remainingForVariable = availableForVariable -
variableActual, both plain integer subtractions that may go negative. -/
theorem C4_fixed_and_variable (s : Store) (year month : Nat) :
    let S := getMonthlySummary s.transactions year month
    let B := calculateAvailableBudget s year month
    let vid := ((getCategories s).find? (fun c => c.name = VARIABLE_EXPENSES_NAME)).map
      (fun c => c.id)
    let avgs := getAllCategoryAverages s year month
    B.fixedExpenses = ((S.byCategory.filter (fun p => !(some p.1 = vid : Bool))).map
        (fun p => max p.2.expenses (avgLookup avgs p.1))).sum ∧
    (vid = none →
      B.fixedExpenses =
        (S.byCategory.map (fun p => max p.2.expenses (avgLookup avgs p.1))).sum) ∧
    B.variableActual = (match vid with
      | none => 0
      | some v =>
        match lookupBucket S.byCategory v with
        | some bkt => bkt.expenses
        | none => 0) ∧
    B.savingsGoal = getSavingsGoal s year month ∧
    B.availableForVariable = B.expectedIncome - B.savingsGoal - B.fixedExpenses ∧
    B.remainingForVariable = B.availableForVariable - B.variableActual := by
  intro S B vid avgs
  have hfix : B.fixedExpenses = (S.byCategory.foldl (fixedStep vid avgs) (0, 0)).1 := rfl
  have hvar : B.variableActual = (S.byCategory.foldl (fixedStep vid avgs) (0, 0)).2 := rfl
  have hdk : S.byCategory.Pairwise (fun p q => p.1 ≠ q.1) :=
    byCategory_keysDistinct S.transactions [] List.Pairwise.nil
  refine ⟨?_, ?_, ?_, rfl, rfl, rfl⟩
  · rw [hfix, fixedStep_fst, zero_add]
  · intro hnone
    rw [hfix, fixedStep_fst, zero_add, hnone]
    have hall : S.byCategory.filter (fun p => !(some p.1 = (none : Option String) : Bool)) =
        S.byCategory :=
      List.filter_eq_self.mpr (fun a _ => by simp)
    rw [hall]
  · rw [hvar, fixedStep_snd _ _ _ _ _ hdk]

/-- Witness for C4: the empty store has no variable-expenses category, so
fixedExpenses sums over every bucket. -/
theorem C4_fixed_and_variable_witness :
    (calculateAvailableBudget storeEmpty 2024 6).fixedExpenses =
      ((getMonthlySummary storeEmpty.transactions 2024 6).byCategory.map
        (fun p => max p.2.expenses (avgLookup (getAllCategoryAverages storeEmpty 2024 6) p.1))).sum :=
  (C4_fixed_and_variable storeEmpty 2024 6).2.1 (by decide)

/-- One step of the year-to-date loop, written out per case. -/
lemma ytdStep_eq (year : Nat) (acc : YtdAcc) (t : Txn) :
    ytdStep year acc t =
      if belongsToYear t = year then
        (if t.is_investment then
          { acc with investmentTotal := acc.investmentTotal + |t.amount|, count := acc.count + 1 }
        else if 0 < t.amount then
          { acc with income := acc.income + t.amount, count := acc.count + 1 }
        else
          { acc with expenses := acc.expenses + |t.amount|, count := acc.count + 1 })
      else acc := rfl

/-- Income field of the year-to-date loop. -/
lemma ytd_income (L : List Txn) (year : Nat) (acc : YtdAcc) :
    (L.foldl (ytdStep year) acc).income =
      acc.income + ((L.filter (fun t => decide (belongsToYear t = year) &&
        (!t.is_investment && decide (0 < t.amount)))).map Txn.amount).sum := by
  induction L generalizing acc with
  | nil => simp
  | cons t L ih =>
    simp only [List.foldl_cons, List.filter_cons, ih, ytdStep_eq]
    by_cases hb : belongsToYear t = year
    · rcases hi : t.is_investment <;> rcases le_or_lt t.amount 0 with hp | hp <;>
        first
          | (simp [hb, hi, hp, not_lt.mpr hp, add_assoc]
             done)
          | (simp [hb, hi, hp, not_le.mpr hp, add_assoc]
             done)
    · simp [hb]

/-- Expenses field of the year-to-date loop. -/
lemma ytd_expenses (L : List Txn) (year : Nat) (acc : YtdAcc) :
    (L.foldl (ytdStep year) acc).expenses =
      acc.expenses + ((L.filter (fun t => decide (belongsToYear t = year) &&
        (!t.is_investment && decide (t.amount ≤ 0)))).map (fun t => |t.amount|)).sum := by
  induction L generalizing acc with
  | nil => simp
  | cons t L ih =>
    simp only [List.foldl_cons, List.filter_cons, ih, ytdStep_eq]
    by_cases hb : belongsToYear t = year
    · rcases hi : t.is_investment <;> rcases le_or_lt t.amount 0 with hp | hp <;>
        first
          | (simp [hb, hi, hp, not_lt.mpr hp, add_assoc]
             done)
          | (simp [hb, hi, hp, not_le.mpr hp, add_assoc]
             done)
    · simp [hb]

/-- Investment-total field of the year-to-date loop. -/
lemma ytd_investment (L : List Txn) (year : Nat) (acc : YtdAcc) :
    (L.foldl (ytdStep year) acc).investmentTotal =
      acc.investmentTotal + ((L.filter (fun t => decide (belongsToYear t = year) &&
        t.is_investment)).map (fun t => |t.amount|)).sum := by
  induction L generalizing acc with
  | nil => simp
  | cons t L ih =>
    simp only [List.foldl_cons, List.filter_cons, ih, ytdStep_eq]
    by_cases hb : belongsToYear t = year
    · rcases hi : t.is_investment <;> rcases le_or_lt t.amount 0 with hp | hp <;>
        first
          | (simp [hb, hi, hp, not_lt.mpr hp, add_assoc]
             done)
          | (simp [hb, hi, hp, not_le.mpr hp, add_assoc]
             done)
    · simp [hb]

/-- Count field of the year-to-date loop. -/
lemma ytd_count (L : List Txn) (year : Nat) (acc : YtdAcc) :
    (L.foldl (ytdStep year) acc).count =
      acc.count + (L.filter (fun t => decide (belongsToYear t = year))).length := by
  induction L generalizing acc with
  | nil => simp
  | cons t L ih =>
    simp only [List.foldl_cons, List.filter_cons, ih, ytdStep_eq]
    by_cases hb : belongsToYear t = year
    · rcases hi : t.is_investment <;> rcases le_or_lt t.amount 0 with hp | hp <;>
        first
          | (simp [hb, hi, hp, not_lt.mpr hp]
             try omega
             done)
          | (simp [hb, hi, hp, not_le.mpr hp]
             try omega
             done)
    · simp [hb]

/-- C8: getYearToDateSummary(year) considers the non-transfer transactions
dated in [year-01-01, (year+1)-01-03]; a January 1-3 transaction matching
a salary or credit-card pattern resolves to the previous calendar year and
every other transaction to its calendar year; only rows resolving to the
requested year are counted, investment rows summed separately by absolute
value and the rest into income or expenses by sign.  (The year >= 1
hypothesis guards the Nat subtraction modelling JavaScript's
txnYear - 1.) -/
theorem C8_ytd_summary (store : List Txn) (year : Nat) (hy : 1 <= year) :
    let A := store.filter (fun t =>
      Date.le (Date.mk year 1 1) t.date && Date.le t.date (Date.mk (year + 1) 1 3) &&
        !t.is_transfer)
    let base := A.filter (fun t => decide (belongsToYear t = year))
    let S := getYearToDateSummary store year
    S.transactionCount = base.length ∧
    S.investmentTotal = ((base.filter (fun t => t.is_investment)).map (fun t => |t.amount|)).sum ∧
    S.income = ((base.filter (fun t => !t.is_investment && decide (0 < t.amount))).map
      Txn.amount).sum ∧
    S.expenses = ((base.filter (fun t => !t.is_investment && decide (t.amount < 0))).map
      (fun t => |t.amount|)).sum ∧
    S.balance = S.income - S.expenses ∧
    (∀ t : Txn, t.date.month = 1 → t.date.day ≤ 3 →
      (isSalaryTransaction t.description t.amount = true ∨
        isCreditCardTransaction t.description = true) →
      belongsToYear t = t.date.year - 1) ∧
    (∀ t : Txn, t.date.month = 1 → t.date.day ≤ 3 →
      isSalaryTransaction t.description t.amount = false →
      isCreditCardTransaction t.description = false →
      belongsToYear t = t.date.year) ∧
    (∀ t : Txn, ¬ (t.date.month = 1 ∧ t.date.day ≤ 3) → belongsToYear t = t.date.year) := by
  intro A base S
  have hcount : S.transactionCount = (A.foldl (ytdStep year) {}).count := rfl
  have hinv : S.investmentTotal = (A.foldl (ytdStep year) {}).investmentTotal := rfl
  have hinc : S.income = (A.foldl (ytdStep year) {}).income := rfl
  have hexp : S.expenses = (A.foldl (ytdStep year) {}).expenses := rfl
  refine ⟨?_, ?_, ?_, ?_, rfl, ?_, ?_, ?_⟩
  · rw [hcount, ytd_count]
    show 0 + _ = _
    rw [Nat.zero_add]
  · rw [hinv, ytd_investment,
      filter_and A (fun t => decide (belongsToYear t = year)) (fun t => t.is_investment)]
    show (0 : Int) + _ = _
    rw [zero_add]
  · rw [hinc, ytd_income,
      filter_and A (fun t => decide (belongsToYear t = year))
        (fun t => !t.is_investment && decide (0 < t.amount))]
    show (0 : Int) + _ = _
    rw [zero_add]
  · rw [hexp, ytd_expenses,
      filter_and A (fun t => decide (belongsToYear t = year))
        (fun t => !t.is_investment && decide (t.amount ≤ 0))]
    show (0 : Int) + _ = _
    rw [zero_add]
    have hb := sum_abs_nonpos_filter2 base (fun t => !t.is_investment)
    rw [show (fun t : Txn => !t.is_investment && decide (t.amount ≤ 0)) =
        (fun t : Txn => decide (t.amount ≤ 0) && !t.is_investment) from by
      funext t; exact Bool.and_comm _ _]
    rw [show (fun t : Txn => !t.is_investment && decide (t.amount < 0)) =
        (fun t : Txn => decide (t.amount < 0) && !t.is_investment) from by
      funext t; exact Bool.and_comm _ _]
    exact hb
  · intro t h1 h3 hsc
    unfold belongsToYear
    rw [if_pos ⟨h1, h3⟩, if_pos]
    rcases hsc with h | h <;> simp [h]
  · intro t h1 h3 hs hc
    unfold belongsToYear
    rw [if_pos ⟨h1, h3⟩, if_neg]
    simp [hs, hc]
  · intro t hno
    unfold belongsToYear
    rw [if_neg hno]

/-- A concrete early-January salary transaction. -/
def txC8 : Txn :=
  { id := "t8", date := ⟨2025, 1, 2⟩, amount := 1300000, description := "משכורת",
    memo := "", account := "hapoalim", type := "income", category_id := none,
    is_transfer := false, is_investment := false, is_occasional_income := false,
    user_comment := none }

/-- Witness for C8: a January 2nd salary transaction resolves to the
previous calendar year. -/
theorem C8_ytd_summary_witness : belongsToYear txC8 = txC8.date.year - 1 :=
  (C8_ytd_summary [] 2024 (by decide)).2.2.2.2.2.1 txC8 rfl (by decide)
    (Or.inl (by decide))

/-- C10: setTransactionInvestment(id, b) sets is_investment to b and
unconditionally clears is_transfer, also when b is false and regardless of
how the transfer flag had been set; rows with a different id are
untouched. -/
theorem C10_set_investment (rows : List Txn) (tid : String) (b : Bool) :
    (setTransactionInvestment rows tid b).length = rows.length ∧
    (∀ w' ∈ setTransactionInvestment rows tid b, ∃ w ∈ rows,
      w'.id = w.id ∧
      (w.id = tid → w' = { w with is_investment := b, is_transfer := false }) ∧
      (w.id ≠ tid → w' = w)) ∧
    (∀ w' ∈ setTransactionInvestment rows tid false, w'.id = tid →
      w'.is_transfer = false ∧ w'.is_investment = false) := by
  refine ⟨List.length_map rows _, ?_, ?_⟩
  · intro w' hw'
    rcases List.mem_map.mp hw' with ⟨w, hw, hmap⟩
    by_cases hid : w.id = tid
    · refine ⟨w, hw, ?_, fun _ => by rw [← hmap, if_pos hid], fun h => absurd hid h⟩
      rw [← hmap, if_pos hid]
    · refine ⟨w, hw, ?_, fun h => absurd h hid, fun _ => by rw [← hmap, if_neg hid]⟩
      rw [← hmap, if_neg hid]
  · intro w' hw' hid
    rcases List.mem_map.mp hw' with ⟨w, _, hmap⟩
    by_cases h : w.id = tid
    · rw [← hmap, if_pos h]
      exact ⟨rfl, rfl⟩
    · rw [← hmap, if_neg h] at hid ⊢
      exact absurd hid h

/-- A transaction carrying both user flags, to instantiate C10. -/
def txC10 : Txn :=
  { id := "t10", date := ⟨2024, 7, 9⟩, amount := -20000, description := "isa deposit",
    memo := "", account := "hapoalim", type := "expense", category_id := some "c2",
    is_transfer := true, is_investment := true, is_occasional_income := false,
    user_comment := some "keep" }

/-- Witness for C10: clearing the investment mark on a transfer-flagged
transaction also clears its transfer flag. -/
theorem C10_set_investment_witness :
    ({ txC10 with is_investment := false, is_transfer := false } : Txn).is_transfer = false ∧
    ({ txC10 with is_investment := false, is_transfer := false } : Txn).is_investment = false :=
  (C10_set_investment [txC10] "t10" false).2.2
    { txC10 with is_investment := false, is_transfer := false } (by decide) (by decide)

/-- The user-editable classification columns that upserts must not touch. -/
def flagsEq (w w' : Txn) : Prop :=
  w'.category_id = w.category_id ∧ w'.is_transfer = w.is_transfer ∧
  w'.is_investment = w.is_investment ∧ w'.is_occasional_income = w.is_occasional_income ∧
  w'.user_comment = w.user_comment

/-- The UPDATE branch never changes the row id. -/
lemma updateRow_id (w : Txn) (r : RawTxn) (acc : String) : (updateRow w r acc).id = w.id := rfl

/-- The INSERT branch stores the record's id. -/
lemma insertRow_id (r : RawTxn) (acc : String) : (insertRow r acc).id = r.id := rfl

/-- In a table with pairwise distinct ids, two rows with the same id are the
same row. -/
lemma eq_of_same_id (rows : List Txn) (h : rows.Pairwise (fun a b => a.id ≠ b.id))
    (a b : Txn) (ha : a ∈ rows) (hb : b ∈ rows) (hid : a.id = b.id) : a = b := by
  induction rows with
  | nil => cases ha
  | cons p rest ih =>
    have hhead : ∀ q ∈ rest, p.id ≠ q.id := fun q hq => List.rel_of_pairwise_cons h hq
    rcases List.mem_cons.mp ha with rfl | ha2
    · rcases List.mem_cons.mp hb with rfl | hb2
      · rfl
      · exact absurd hid (hhead b hb2)
    · rcases List.mem_cons.mp hb with rfl | hb2
      · exact absurd hid.symm (hhead a ha2)
      · exact ih h.of_cons ha2 hb2

/-- The flag-preservation and id-presence invariants survive a whole upsert
batch. -/
lemma upsert_P_Q (batch : List RawTxn) (acc : String) (rows : List Txn) :
    ∀ rows' : List Txn,
    (∀ w ∈ rows, ∀ w' ∈ rows', w'.id = w.id → flagsEq w w') →
    (∀ w ∈ rows, ∃ w' ∈ rows', w'.id = w.id) →
    (∀ w ∈ rows, ∀ w' ∈ upsertTransactions rows' batch acc, w'.id = w.id → flagsEq w w') ∧
    (∀ w ∈ rows, ∃ w' ∈ upsertTransactions rows' batch acc, w'.id = w.id) := by
  induction batch with
  | nil => exact fun rows' hP hQ => ⟨hP, hQ⟩
  | cons r batch ih =>
    intro rows' hP hQ
    have hstep : upsertTransactions rows' (r :: batch) acc =
        upsertTransactions (upsertOne rows' acc r) batch acc := rfl
    rw [hstep]
    apply ih
    · intro w hw w' hw' hid
      unfold upsertOne at hw'
      by_cases hex : rows'.any (fun x => x.id = r.id)
      · rw [if_pos hex] at hw'
        rcases List.mem_map.mp hw' with ⟨w1, hw1, hmap⟩
        by_cases h1 : w1.id = r.id
        · rw [← hmap, if_pos h1] at hid ⊢
          exact hP w hw w1 hw1 hid
        · rw [← hmap, if_neg h1] at hid ⊢
          exact hP w hw w1 hw1 hid
      · rw [if_neg hex] at hw'
        rcases List.mem_append.mp hw' with h | h
        · exact hP w hw w' h hid
        · rw [List.mem_singleton] at h
          subst h
          exfalso
          rcases hQ w hw with ⟨w1, hw1, hid1⟩
          refine hex (List.any_eq_true.mpr ⟨w1, hw1, ?_⟩)
          have : w1.id = r.id := hid1.trans hid.symm
          simp [this]
    · intro w hw
      rcases hQ w hw with ⟨w1, hw1, hid1⟩
      unfold upsertOne
      by_cases hex : rows'.any (fun x => x.id = r.id)
      · rw [if_pos hex]
        refine ⟨if w1.id = r.id then updateRow w1 r acc else w1,
          List.mem_map.mpr ⟨w1, hw1, rfl⟩, ?_⟩
        by_cases h1 : w1.id = r.id
        · rw [if_pos h1, updateRow_id]
          exact hid1
        · rw [if_neg h1]
          exact hid1
      · rw [if_neg hex]
        exact ⟨w1, List.mem_append.mpr (Or.inl hw1), hid1⟩

/-- One upsert step keeps ids pairwise distinct. -/
lemma upsertOne_uniq (rows : List Txn) (acc : String) (r : RawTxn)
    (h : rows.Pairwise (fun a b => a.id ≠ b.id)) :
    (upsertOne rows acc r).Pairwise (fun a b => a.id ≠ b.id) := by
  unfold upsertOne
  by_cases hex : rows.any (fun x => x.id = r.id)
  · rw [if_pos hex, List.pairwise_map]
    refine h.imp_of_mem ?_
    intro a b _ _ hab
    by_cases ha : a.id = r.id <;> by_cases hb : b.id = r.id
    · exact absurd (ha.trans hb.symm) hab
    · rw [if_pos ha, if_neg hb, updateRow_id]
      exact hab
    · rw [if_neg ha, if_pos hb, updateRow_id]
      exact hab
    · rw [if_neg ha, if_neg hb]
      exact hab
  · rw [if_neg hex, List.pairwise_append]
    refine ⟨h, List.pairwise_singleton _ _, ?_⟩
    intro a ha b hb
    rw [List.mem_singleton] at hb
    subst hb
    intro hcontra
    refine hex (List.any_eq_true.mpr ⟨a, ha, ?_⟩)
    simp [hcontra, insertRow_id]

/-- A whole upsert batch keeps ids pairwise distinct. -/
lemma upsert_uniq (batch : List RawTxn) (acc : String) :
    ∀ rows : List Txn, rows.Pairwise (fun a b => a.id ≠ b.id) →
    (upsertTransactions rows batch acc).Pairwise (fun a b => a.id ≠ b.id) := by
  induction batch with
  | nil => exact fun rows h => h
  | cons r batch ih => exact fun rows h => ih _ (upsertOne_uniq rows acc r h)

/-- A one-record batch whose id is present takes the UPDATE branch. -/
lemma upsert_single_update (rows : List Txn) (r : RawTxn) (acc : String)
    (hex : rows.any (fun x => x.id = r.id) = true) :
    upsertTransactions rows [r] acc =
      rows.map (fun w => if w.id = r.id then updateRow w r acc else w) := by
  show upsertOne rows acc r = _
  unfold upsertOne
  rw [if_pos hex]

/-- A one-record batch whose id is absent takes the INSERT branch. -/
lemma upsert_single_insert (rows : List Txn) (r : RawTxn) (acc : String)
    (hex : rows.any (fun x => x.id = r.id) = false) :
    upsertTransactions rows [r] acc = rows ++ [insertRow r acc] := by
  show upsertOne rows acc r = _
  unfold upsertOne
  rw [if_neg (by simp [hex])]

/-- The UPDATE branch does not change how many rows carry the record's id. -/
lemma countP_map_update (rows : List Txn) (r : RawTxn) (acc : String) :
    (rows.map (fun w => if w.id = r.id then updateRow w r acc else w)).countP
        (fun w => decide (w.id = r.id)) =
      rows.countP (fun w => decide (w.id = r.id)) := by
  induction rows with
  | nil => rfl
  | cons w rows ih =>
    by_cases h : w.id = r.id <;> simp [List.countP_cons, h, updateRow_id, ih]

/-- C6: for a record whose identity already exists, upsertTransactions
updates date, amount, description, memo, account (and derived type) but
preserves category_id, is_transfer, is_investment, is_occasional_income and
user_comment, and never duplicates an id; re-ingesting an identical record
twice leaves exactly one stored row; transfer auto-detection applies only
to identities not yet present (the inserted row's is_transfer is computed
from the description, the update branch never touches it). -/
theorem C6_upsert_frame (rows : List Txn) (batch : List RawTxn) (r : RawTxn) (acc : String)
    (huniq : rows.Pairwise (fun a b => a.id ≠ b.id)) :
    ((upsertTransactions rows batch acc).Pairwise (fun a b => a.id ≠ b.id)) ∧
    (∀ w ∈ rows, ∀ w' ∈ upsertTransactions rows batch acc, w'.id = w.id →
      w'.category_id = w.category_id ∧ w'.is_transfer = w.is_transfer ∧
      w'.is_investment = w.is_investment ∧ w'.is_occasional_income = w.is_occasional_income ∧
      w'.user_comment = w.user_comment) ∧
    ((∃ w ∈ rows, w.id = r.id) →
      upsertTransactions rows [r] acc =
        rows.map (fun w => if w.id = r.id then updateRow w r acc else w)) ∧
    ((∀ w ∈ rows, w.id ≠ r.id) →
      upsertTransactions rows [r] acc = rows ++ [insertRow r acc] ∧
      (upsertTransactions (upsertTransactions rows [r] acc) [r] acc).countP
        (fun w => decide (w.id = r.id)) = 1) ∧
    (insertRow r acc).is_transfer = isTransfer (r.description.getD "") := by
  refine ⟨upsert_uniq batch acc rows huniq, ?_, ?_, ?_, rfl⟩
  · have hP : ∀ w ∈ rows, ∀ w' ∈ rows, w'.id = w.id → flagsEq w w' := by
      intro w hw w' hw' hid
      rw [eq_of_same_id rows huniq w' w hw' hw hid]
      exact ⟨rfl, rfl, rfl, rfl, rfl⟩
    have hQ : ∀ w ∈ rows, ∃ w' ∈ rows, w'.id = w.id := fun w hw => ⟨w, hw, rfl⟩
    exact (upsert_P_Q batch acc rows rows hP hQ).1
  · intro ⟨w, hw, hid⟩
    refine upsert_single_update rows r acc (List.any_eq_true.mpr ⟨w, hw, ?_⟩)
    simp [hid]
  · intro hfresh
    have hex0 : rows.any (fun x => x.id = r.id) = false := by
      cases hany : rows.any (fun x => x.id = r.id)
      · rfl
      · exfalso
        rcases List.any_eq_true.mp hany with ⟨a, ha, hpa⟩
        exact hfresh a ha (by simpa using hpa)
    have heq1 := upsert_single_insert rows r acc hex0
    refine ⟨heq1, ?_⟩
    have hex1 : (rows ++ [insertRow r acc]).any (fun x => x.id = r.id) = true := by
      refine List.any_eq_true.mpr ⟨insertRow r acc,
        List.mem_append.mpr (Or.inr (List.mem_singleton.mpr rfl)), ?_⟩
      simp [insertRow]
    rw [heq1, upsert_single_update _ _ _ hex1, countP_map_update, List.countP_append]
    have h0 : rows.countP (fun w => decide (w.id = r.id)) = 0 :=
      List.countP_eq_zero.mpr (fun a ha => by simpa using hfresh a ha)
    rw [h0]
    simp [List.countP_cons, insertRow]

/-- A concrete scraped record for the C6 witness. -/
def rawC6 : RawTxn :=
  { id := "r6", date := ⟨2024, 6, 10⟩, amount := -700, description := some "coffee",
    memo := none }

/-- Witness for C6: ingesting the same record twice into an empty store
leaves exactly one row with its id. -/
theorem C6_upsert_frame_witness :
    (upsertTransactions (upsertTransactions [] [rawC6] "hapoalim") [rawC6] "hapoalim").countP
      (fun w => decide (w.id = rawC6.id)) = 1 :=
  ((C6_upsert_frame [] [] rawC6 "hapoalim" (by decide)).2.2.2.1 (by decide)).2

/-- find? after the per-id category write locates the (unique) written row. -/
lemma find?_map_set (rows : List Txn) (tid : String) (c : Option String)
    (h : rows.Pairwise (fun a b => a.id ≠ b.id)) (t : Txn) (ht : t ∈ rows)
    (hid : t.id = tid) :
    (rows.map (fun w => if w.id = tid then { w with category_id := c } else w)).find?
      (fun w => w.id = tid) = some { t with category_id := c } := by
  induction rows with
  | nil => cases ht
  | cons p rest ih =>
    have hhead : ∀ q ∈ rest, p.id ≠ q.id := fun q hq => List.rel_of_pairwise_cons h hq
    rcases List.mem_cons.mp ht with rfl | ht2
    · simp only [List.map_cons]
      rw [if_pos hid, List.find?_cons_of_pos]
      simp [hid]
    · have hpne : p.id ≠ tid := fun hp => (hhead t ht2) (hp.trans hid.symm)
      simp only [List.map_cons]
      rw [if_neg hpne, List.find?_cons_of_neg]
      · exact ih h.of_cons ht2
      · simp [hpne]

/-- The previous lemma phrased on the named step of setTransactionCategory. -/
lemma find?_applyCategoryUpdate (rows : List Txn) (tid : String) (c : Option String)
    (h : rows.Pairwise (fun a b => a.id ≠ b.id)) (t : Txn) (ht : t ∈ rows)
    (hid : t.id = tid) :
    (applyCategoryUpdate rows tid c).find? (fun w => w.id = tid) =
      some { t with category_id := c } :=
  find?_map_set rows tid c h t ht hid

/-- C7: with a non-null category c, setTransactionCategory sets the target
transaction's category to c, upserts the rule keyed by the target's exact
description and cascades c to every other stored transaction with that
exact description whose category is currently NULL or empty, leaving any
transaction with that description that already carries a category
untouched; with a null category it clears the target's category and
deletes the rule keyed by the target's description.  (Category ids and the
target's description are nonempty strings; the empty string is falsy in
the source's truthiness tests.) -/
theorem C7_rule_cascade (st : DBState) (tid : String) (t : Txn) (c : String)
    (huniq : st.transactions.Pairwise (fun a b => a.id ≠ b.id))
    (ht : t ∈ st.transactions) (hid : t.id = tid) (hdesc : t.description ≠ "")
    (hc : c ≠ "") :
    ((setTransactionCategory st tid (some c)).transactions =
      st.transactions.map (fun w =>
        if w.id = tid then { w with category_id := some c }
        else if w.description = t.description ∧
            (w.category_id = none ∨ w.category_id = some "") then
          { w with category_id := some c }
        else w) ∧
     (setTransactionCategory st tid (some c)).rules = upsertRule st.rules t.description c) ∧
    ((setTransactionCategory st tid none).transactions =
      st.transactions.map (fun w =>
        if w.id = tid then { w with category_id := none } else w) ∧
     (setTransactionCategory st tid none).rules = deleteRule st.rules t.description) := by
  constructor
  · have hfind := find?_applyCategoryUpdate st.transactions tid (some c) huniq t ht hid
    unfold setTransactionCategory cascadeRule
    rw [hfind]
    dsimp only
    rw [if_pos ⟨hdesc, hc⟩]
    unfold clearRuleStep
    rw [if_pos (by simp [optTruthy, hc])]
    constructor
    · show (applyCategoryUpdate st.transactions tid (some c)).map _ = _
      unfold applyCategoryUpdate
      rw [List.map_map]
      apply List.map_congr_left
      intro w hw
      by_cases hw_id : w.id = tid
      · have hwt : w = t := eq_of_same_id st.transactions huniq w t hw ht (hw_id.trans hid.symm)
        subst hwt
        simp only [Function.comp_apply, if_pos hw_id]
        split_ifs <;> rfl
      · simp only [Function.comp_apply, if_neg hw_id]
    · rfl
  · have hfind := find?_applyCategoryUpdate st.transactions tid none huniq t ht hid
    unfold setTransactionCategory cascadeRule
    rw [hfind]
    dsimp only
    unfold clearRuleStep
    rw [if_neg (by simp [optTruthy])]
    dsimp only
    rw [hfind]
    dsimp only
    rw [if_pos hdesc]
    exact ⟨rfl, rfl⟩

/-- Two uncategorized transactions sharing one description. -/
def txC7a : Txn :=
  { id := "a1", date := ⟨2024, 6, 10⟩, amount := -3000, description := "super",
    memo := "", account := "cal", type := "expense", category_id := none,
    is_transfer := false, is_investment := false, is_occasional_income := false,
    user_comment := none }

/-- Companion transaction with the same description. -/
def txC7b : Txn :=
  { id := "b2", date := ⟨2024, 6, 12⟩, amount := -4500, description := "super",
    memo := "", account := "cal", type := "expense", category_id := none,
    is_transfer := false, is_investment := false, is_occasional_income := false,
    user_comment := none }

/-- A two-row database state with no rules. -/
def stC7 : DBState := { transactions := [txC7a, txC7b], rules := [] }

/-- Witness for C7: categorising the first row cascades to the second
uncategorized row with the same description. -/
theorem C7_rule_cascade_witness :
    (setTransactionCategory stC7 "a1" (some "c9")).transactions =
      stC7.transactions.map (fun w =>
        if w.id = "a1" then { w with category_id := some "c9" }
        else if w.description = txC7a.description ∧
            (w.category_id = none ∨ w.category_id = some "") then
          { w with category_id := some "c9" }
        else w) :=
  (C7_rule_cascade stC7 "a1" txC7a "c9" (by decide) (by decide) rfl (by decide)
    (by decide)).1.1

end IncomeApp
